import Mathlib

/-!
Shallow embedding of `packages/astro/src/vite-plugin-astro/index.ts`:
the Astro Vite plugin's `load` pipeline (page/layout classification,
compiler + esbuild invocation, style-preprocessing bridge, and the
error-enrichment catch handler), together with the small helpers
`isSSR` and the style language derivation.

JavaScript runtime values that flow through the untyped parts of the
code (the `opts` argument, thrown error values, source-map objects) are
modelled by the `JSValue` type below.  Property access follows JS
semantics: reading a property of `null`/`undefined` throws a TypeError,
reading a missing property of an object (or any property of another
primitive) yields `undefined`.
-/

/-- A JavaScript runtime value, as far as this plugin inspects one. -/
inductive JSValue where
  | undefined : JSValue
  | null : JSValue
  | bool (b : Bool) : JSValue
  | num (n : Int) : JSValue
  | str (s : String) : JSValue
  | obj (fields : List (String × JSValue)) : JSValue

/-- First-match association lookup used for JS object property access. -/
def jsLookup : List (String × JSValue) → String → Option JSValue
  | [], _ => none
  | (k', v') :: rest, k => if k' = k then some v' else jsLookup rest k

/-- JS property read `v[k]`: throws a TypeError on `null`/`undefined`,
yields `undefined` for a missing key or a non-object primitive. -/
def getField : JSValue → String → Except String JSValue
  | JSValue.undefined, k =>
      Except.error ("TypeError: Cannot read properties of undefined (reading " ++ k ++ ")")
  | JSValue.null, k =>
      Except.error ("TypeError: Cannot read properties of null (reading " ++ k ++ ")")
  | JSValue.obj fs, k => Except.ok ((jsLookup fs k).getD JSValue.undefined)
  | _, _ => Except.ok JSValue.undefined

/-- Total variant of property read, used where the receiver is known to
be neither `null` nor `undefined` (JS would box the primitive). -/
def getFieldD (v : JSValue) (k : String) : JSValue :=
  match v with
  | JSValue.obj fs => (jsLookup fs k).getD JSValue.undefined
  | _ => JSValue.undefined

/-- Replace the binding for `k` (first occurrence) or append it. -/
def setAssoc : List (String × JSValue) → String → JSValue → List (String × JSValue)
  | [], k, v => [(k, v)]
  | (k', v') :: rest, k, v =>
      if k' = k then (k, v) :: rest else (k', v') :: setAssoc rest k v

/-- JS property write `e[k] = v`.  On a non-object the write is a silent
no-op (sloppy-mode JS); the enrichment path only ever writes to error
objects. -/
def setField : JSValue → String → JSValue → JSValue
  | JSValue.obj fs, k, v => JSValue.obj (setAssoc fs k v)
  | e, _, _ => e

/-- JS truthiness of a value (`!!v`, `if (v)`). -/
def truthy : JSValue → Bool
  | JSValue.undefined => false
  | JSValue.null => false
  | JSValue.bool b => b
  | JSValue.num n => n != 0
  | JSValue.str s => s != ""
  | JSValue.obj _ => true

/-- The JS `typeof` operator on modelled values; note `typeof null`
is the string "object". -/
def jsTypeof : JSValue → String
  | JSValue.undefined => "undefined"
  | JSValue.null => "object"
  | JSValue.bool _ => "boolean"
  | JSValue.num _ => "number"
  | JSValue.str _ => "string"
  | JSValue.obj _ => "object"

/-- Strict equality against `undefined` (`options === undefined`). -/
def isUndefined : JSValue → Bool
  | JSValue.undefined => true
  | _ => false

/-- The boolean payload of a value known (by a `typeof` guard) to be a
boolean. -/
def booleanValue : JSValue → Bool
  | JSValue.bool b => b
  | _ => false

/-- `isSSR` from index.ts lines 20-31.  The if-chain mirrors the source:
`options === undefined`, then `typeof options === 'boolean'`, then
`typeof options == 'object'` (which is also true for `null`, so the
read `options.ssr` can throw), else `false`. -/
def isSSR (options : JSValue) : Except String Bool :=
  if isUndefined options then Except.ok false
  else if jsTypeof options = "boolean" then Except.ok (booleanValue options)
  else if jsTypeof options = "object" then
    (getField options "ssr").map truthy
  else Except.ok false

/-- JS `String.prototype.startsWith` as a character-prefix test. -/
def jsStartsWith (s pre : String) : Bool :=
  pre.data.isPrefixOf s.data

/-- JS `String.prototype.endsWith` as a character-suffix test. -/
def jsEndsWith (s post : String) : Bool :=
  post.data.isSuffixOf s.data

/-- Containment helper over character lists. -/
def strContainsAux (pat : List Char) : List Char → Bool
  | [] => pat.isPrefixOf []
  | c :: rest => pat.isPrefixOf (c :: rest) || strContainsAux pat rest

/-- JS `String.prototype.includes`: substring containment. -/
def strContains (s pat : String) : Bool :=
  strContainsAux pat.data s.data

/-- JS `str.replace(pat, '')` with a string pattern: remove the first
occurrence of `pat` (no change when `pat` does not occur). -/
def removeFirstAux (pat : List Char) : List Char → List Char
  | [] => []
  | c :: rest =>
      if pat.isPrefixOf (c :: rest) then (c :: rest).drop pat.length
      else c :: removeFirstAux pat rest

/-- JS `id.replace(projectRootPath, '')` used to relativize the file
path in the issue body. -/
def removeFirst (s pat : String) : String :=
  if pat = "" then s else String.mk (removeFirstAux pat.data s.data)


/-! ## Style preprocessing bridge (index.ts lines 67-83) -/

/-- String-valued first-match lookup for the `attrs` record of a style
block. -/
def strLookup : List (String × String) → String → Option String
  | [], _ => none
  | (k', v') :: rest, k => if k' = k then some v' else strLookup rest k

/-- JS `String.prototype.toLowerCase`, character-wise (ASCII range,
which covers the language tokens this plugin handles). -/
def jsToLowerCase (s : String) : String :=
  String.mk (s.data.map Char.toLower)

/-- Line 68: ``const lang = `.${attrs?.lang || 'css'}`.toLowerCase()``.
`attrs` may be nullish (the `?.`), the `lang` value may be missing or
the empty string (both falsy, so `|| 'css'` applies), and the dotted
token is lower-cased. -/
def deriveLang (attrs : Option (List (String × String))) : String :=
  let raw : Option String :=
    match attrs with
    | none => none
    | some a => strLookup a "lang"
  let chosen : String :=
    match raw with
    | some s => if s = "" then "css" else s
    | none => "css"
  jsToLowerCase ("." ++ chosen)

/-- The request handed to `transformWithVite` (the host style-transform
chain). -/
structure StyleReq where
  value : String
  lang : String
  id : String
  ssr : Bool

/-- The delegate's result: its `code`, its `map` (a JS value: absent, a
string, or a structured map object), and the string its `map` would
serialize to via `toString()`. -/
structure ViteResult where
  code : String
  map : JSValue
  mapToString : String

/-- The bridge's output object `{ code, map }`. -/
structure StyleOut where
  code : String
  map : Option String

/-- Lines 74-81: collapse the delegate's map into string-or-undefined.
`if (result.map)` (truthiness), then a string map is kept as-is, then a
map with a truthy `mappings` field is serialized via `toString()`; any
other shape leaves the map `undefined`. -/
def normalizeMap (m : JSValue) (mToString : String) : Option String :=
  if truthy m then
    match m with
    | JSValue.str s => some s
    | other => if truthy (getFieldD other "mappings") then some mToString else none
  else none

/-- Lines 67-83: the `preprocessStyle` callback.  Derives the language
token, computes the ssr flag via `isSSR` (which can throw on `null`
opts), delegates to the host chain, and either propagates an absent
result unchanged or returns `{ code, map }` with the normalized map. -/
def preprocessStyle (viteTransform : StyleReq → Option ViteResult)
    (value : String) (attrs : Option (List (String × String)))
    (id : String) (opts : JSValue) : Except String (Option StyleOut) := do
  let lang := deriveLang attrs
  let ssr ← isSSR opts
  match viteTransform { value := value, lang := lang, id := id, ssr := ssr } with
  | none => Except.ok none
  | some result =>
      Except.ok (some { code := result.code, map := normalizeMap result.map result.mapToString })


/-! ## Issue URL construction (index.ts lines 96-114) -/

/-- UTF-8 byte sequence of a character, as natural numbers. -/
def charUtf8 (c : Char) : List Nat :=
  let n := c.toNat
  if n < 128 then [n]
  else if n < 2048 then [192 + n / 64, 128 + n % 64]
  else if n < 65536 then [224 + n / 4096, 128 + (n / 64) % 64, 128 + n % 64]
  else [240 + n / 262144, 128 + (n / 4096) % 64, 128 + (n / 64) % 64, 128 + n % 64]

/-- Upper-case hex digit of a value below 16. -/
def hexUpper (n : Nat) : Char :=
  if n < 10 then Char.ofNat (48 + n) else Char.ofNat (55 + n)

/-- Bytes kept verbatim by the `application/x-www-form-urlencoded`
serializer: ASCII alphanumerics and `*`, `-`, `.`, `_`. -/
def isFormSafe (b : Nat) : Bool :=
  (48 ≤ b && b ≤ 57) || (65 ≤ b && b ≤ 90) || (97 ≤ b && b ≤ 122) ||
  b = 42 || b = 45 || b = 46 || b = 95

/-- Encode one byte for a query string: safe bytes verbatim, space as
`+`, anything else percent-encoded. -/
def encodeByte (b : Nat) : String :=
  if isFormSafe b then String.singleton (Char.ofNat b)
  else if b = 32 then "+"
  else "%" ++ String.singleton (hexUpper (b / 16)) ++ String.singleton (hexUpper (b % 16))

/-- `URLSearchParams` percent-encoding of one component. -/
def formEncode (s : String) : String :=
  String.join ((s.data.flatMap charUtf8).map encodeByte)

/-- `URLSearchParams.toString()`: `k=v` pairs joined by `&`, each side
form-encoded. -/
def urlSearchParamsToString : List (String × String) → String
  | [] => ""
  | [p] => formEncode p.1 ++ "=" ++ formEncode p.2
  | p :: rest => formEncode p.1 ++ "=" ++ formEncode p.2 ++ "&" ++ urlSearchParamsToString rest

/-- The marker substring of an unrecoverable compiler-sandbox fault
(line 95). -/
def sandboxMarker : String := "wasm-function"

/-- The fixed issue title (line 98). -/
def issueTitle : String := "🐛 BUG: `@astrojs/compiler` panic"

/-- The templated issue body (lines 99-107): the project-root-relative
path and the full raw source fenced as a code block. -/
def issueBody (relPath source : String) : String :=
  "### Describe the Bug\n\n`@astrojs/compiler` encountered an unrecoverable error when compiling the following file.\n\n**" ++
    relPath ++ "**\n```astro\n" ++ source ++ "\n```\n"

/-- Line 109: the pre-filled issue URL. -/
def issueURL (id source projectRootPath : String) : String :=
  "https://github.com/withastro/astro/issues/new?" ++
    urlSearchParamsToString
      [("labels", "compiler"),
       ("title", issueTitle),
       ("body", issueBody (removeFirst id projectRootPath) source)]

/-- Lines 110-114: the replacement message, ending in the issue URL. -/
def enrichedMessage (url : String) : String :=
  "Error: Uh oh, the Astro compiler encountered an unrecoverable error!\n\nPlease open\na GitHub issue using the link below:\n" ++ url

/-- Lines 96-116: mutate the caught error object: set `url`, replace
`message`, replace `stack` with the single synthetic frame. -/
def enrichError (err : JSValue) (id source projectRootPath : String) : JSValue :=
  let url := issueURL id source projectRootPath
  setField
    (setField (setField err "url" (JSValue.str url))
      "message" (JSValue.str (enrichedMessage url)))
    "stack" (JSValue.str ("    at " ++ id))

/-! ## The catch handler and the load pipeline (index.ts lines 45-121) -/

/-- What the pipeline ultimately throws: either a JS value rethrown (or
first enriched) by the plugin code, or a fresh TypeError raised by the
JS runtime inside the catch handler itself.  A runtime-allocated
TypeError is a distinct object from the caught value, hence a distinct
constructor. -/
inductive ThrownValue where
  | jsValue (e : JSValue) : ThrownValue
  | freshTypeError (msg : String) : ThrownValue

/-- Lines 93-120: the catch handler.  It evaluates
`err.stack.includes('wasm-function')` unconditionally: reading `stack`
of `null`/`undefined` throws, and calling `.includes` on a non-string
`stack` throws; otherwise the error is enriched when the marker is
present and rethrown as-is when it is not. -/
def catchHandler (err : JSValue) (id source projectRootPath : String) : ThrownValue :=
  match getField err "stack" with
  | Except.error msg => ThrownValue.freshTypeError msg
  | Except.ok stackVal =>
      match stackVal with
      | JSValue.str st =>
          if strContains st sandboxMarker then
            ThrownValue.jsValue (enrichError err id source projectRootPath)
          else
            ThrownValue.jsValue err
      | _ => ThrownValue.freshTypeError "TypeError: err.stack.includes is not a function"

/-- The configuration snapshot the plugin closes over: `config.pages`,
`config.layouts`, `config.projectRoot` (as URL strings) and
`config.buildOptions.site`. -/
structure Config where
  pages : String
  layouts : String
  projectRoot : String
  site : Option String

/-- The request object passed to the `@astrojs/compiler` `transform`
call (lines 60-84, style callback omitted: the compiler is an opaque
collaborator invoked through this request). -/
structure CompileInput where
  as_ : String
  projectRoot : String
  site : Option String
  sourcefile : String
  sourcemap : String
  internalURL : String

/-- Lines 60-66: build the compiler request for a file and a mode. -/
def mkCompileInput (cfg : Config) (id mode : String) : CompileInput :=
  { as_ := mode
    projectRoot := cfg.projectRoot
    site := cfg.site
    sourcefile := id
    sourcemap := "both"
    internalURL := "astro/internal" }

/-- The compiler's response, as far as the pipeline reads it
(`tsResult.code`, line 87). -/
structure TransformResult where
  code : String

/-- The request passed to `esbuild.transform` (line 87). -/
structure EsbuildInput where
  code : String
  loader : String
  sourcemap : String
  sourcefile : String

/-- esbuild's response `{ code, map }`. -/
structure EsbuildResult where
  code : String
  map : String

/-- The artifact returned to Vite (lines 89-92). -/
structure FinalArtifact where
  code : String
  map : String

/-- An observable effect performed by one `load` run, in order. -/
inductive Eff where
  | read (id : String) : Eff
  | compile (inp : CompileInput) : Eff
  | esbuild (inp : EsbuildInput) : Eff

/-- The pipeline's external collaborators: path normalization
(`fileURLToPath`, composed with `new URL` where the source does so),
the filesystem read, the markup compiler and esbuild.  The fallible
ones throw arbitrary JS values. -/
structure LoadEnv where
  fileURLToPath : String → String
  readFile : String → Except JSValue String
  compile : CompileInput → Except JSValue TransformResult
  esbuild : EsbuildInput → Except JSValue EsbuildResult

/-- Lines 51-52: the page/layout classification.
`normalizedID = fileURLToPath(new URL("file://" + id))` starts with
the normalized pages root or the normalized layouts root. -/
def isPageOf (norm : String → String) (pages layouts id : String) : Bool :=
  let normalizedID := norm ("file://" ++ id)
  jsStartsWith normalizedID (norm pages) || jsStartsWith normalizedID (norm layouts)

/-- Line 61: `as: isPage ? 'document' : 'fragment'`. -/
def classifiedMode (norm : String → String) (pages layouts id : String) : String :=
  if isPageOf norm pages layouts id then "document" else "fragment"

/-- Lines 45-121: the `load` hook.  Returns the result (or the thrown
value) together with the list of effects performed.  Note the file read
(line 53) happens before the `try` block (line 56): a read failure
propagates without passing through the catch handler.  The path
normalization `fileURLToPath(new URL("file://" + id))` of lines 51-52
is modelled as the total function `env.fileURLToPath`; in the source it
also executes before the `try` block, so its own potential failures
(e.g. on a non-absolute id) likewise never reach the catch handler —
this model does not represent that throw path and no theorem below
makes a claim about it. -/
def load (env : LoadEnv) (cfg : Config) (id : String) :
    Except ThrownValue (Option FinalArtifact) × List Eff :=
  if jsEndsWith id ".astro" = false then (Except.ok none, [])
  else
    match env.readFile id with
    | Except.error e => (Except.error (ThrownValue.jsValue e), [Eff.read id])
    | Except.ok source =>
        let inp := mkCompileInput cfg id (classifiedMode env.fileURLToPath cfg.pages cfg.layouts id)
        let rootPath := env.fileURLToPath cfg.projectRoot
        match env.compile inp with
        | Except.error err =>
            (Except.error (catchHandler err id source rootPath), [Eff.read id, Eff.compile inp])
        | Except.ok tsResult =>
            let einp : EsbuildInput :=
              { code := tsResult.code, loader := "ts", sourcemap := "external", sourcefile := id }
            match env.esbuild einp with
            | Except.error err =>
                (Except.error (catchHandler err id source rootPath),
                 [Eff.read id, Eff.compile inp, Eff.esbuild einp])
            | Except.ok r =>
                (Except.ok (some { code := r.code, map := r.map }),
                 [Eff.read id, Eff.compile inp, Eff.esbuild einp])

/-- The constant part of the issue URL: base, fixed `labels` and fixed
`title` parameters, up to the `body=` value. -/
def urlFixedPart : String :=
  "https://github.com/withastro/astro/issues/new?" ++ formEncode "labels" ++ "=" ++
    formEncode "compiler" ++ "&" ++ formEncode "title" ++ "=" ++ formEncode issueTitle ++
    "&" ++ formEncode "body" ++ "="

/-! ## Shared concrete objects for witness instantiations -/

/-- A minimal environment: identity path normalization, empty file
content, collaborators that throw `null`. -/
def envW : LoadEnv :=
  { fileURLToPath := fun s => s
    readFile := fun _ => Except.ok ""
    compile := fun _ => Except.error JSValue.null
    esbuild := fun _ => Except.error JSValue.null }

/-- A minimal configuration snapshot. -/
def cfgW : Config := { pages := "/p", layouts := "/l", projectRoot := "", site := none }

/-- The concrete environment for the C1 witness: the compile step
throws an error object whose stack carries the sandbox marker. -/
def envC1W : LoadEnv :=
  { fileURLToPath := fun s => s
    readFile := fun _ => Except.ok ""
    compile := fun _ =>
      Except.error (JSValue.obj [("stack", JSValue.str "at wasm-function")])
    esbuild := fun _ => Except.error JSValue.null }

/-! ## Helper lemmas -/

lemma jsLookup_setAssoc_self (fs : List (String × JSValue)) (k : String) (v : JSValue) :
    jsLookup (setAssoc fs k v) k = some v := by
  induction fs with
  | nil => simp [setAssoc, jsLookup]
  | cons p rest ih =>
      obtain ⟨a, b⟩ := p
      by_cases h : a = k
      · simp [setAssoc, jsLookup, h]
      · simp [setAssoc, jsLookup, h, ih]

lemma jsLookup_setAssoc_ne (fs : List (String × JSValue)) (k k' : String) (v : JSValue)
    (h : k' ≠ k) : jsLookup (setAssoc fs k v) k' = jsLookup fs k' := by
  have h' : k ≠ k' := Ne.symm h
  induction fs with
  | nil => simp [setAssoc, jsLookup, h']
  | cons p rest ih =>
      obtain ⟨a, b⟩ := p
      by_cases hp : a = k
      · subst hp
        simp [setAssoc, jsLookup, h']
      · simp [setAssoc, jsLookup, hp, ih]

lemma getField_enrichError_stack (fs : List (String × JSValue)) (id source pr : String) :
    getField (enrichError (JSValue.obj fs) id source pr) "stack" =
      Except.ok (JSValue.str ("    at " ++ id)) := by
  simp [enrichError, setField, getField, jsLookup_setAssoc_self]

lemma getField_enrichError_message (fs : List (String × JSValue)) (id source pr : String) :
    getField (enrichError (JSValue.obj fs) id source pr) "message" =
      Except.ok (JSValue.str (enrichedMessage (issueURL id source pr))) := by
  have hne : ("message" : String) ≠ "stack" := by decide
  simp [enrichError, setField, getField, jsLookup_setAssoc_ne _ _ _ _ hne,
    jsLookup_setAssoc_self]

lemma getField_enrichError_url (fs : List (String × JSValue)) (id source pr : String) :
    getField (enrichError (JSValue.obj fs) id source pr) "url" =
      Except.ok (JSValue.str (issueURL id source pr)) := by
  have h1 : ("url" : String) ≠ "stack" := by decide
  have h2 : ("url" : String) ≠ "message" := by decide
  simp [enrichError, setField, getField, jsLookup_setAssoc_ne _ _ _ _ h1,
    jsLookup_setAssoc_ne _ _ _ _ h2, jsLookup_setAssoc_self]

lemma strContainsAux_of_isPrefixOf (pat l : List Char) (h : pat.isPrefixOf l = true) :
    strContainsAux pat l = true := by
  cases l with
  | nil => simpa [strContainsAux] using h
  | cons c rest => simp [strContainsAux, h]

lemma strContainsAux_append (pat lb la : List Char) :
    strContainsAux pat (la ++ (pat ++ lb)) = true := by
  induction la with
  | nil => exact strContainsAux_of_isPrefixOf _ _ (by simp)
  | cons c cs ih => simp [strContainsAux, ih]

lemma strContains_intro (s sub : String) (la lb : List Char)
    (h : s.data = la ++ (sub.data ++ lb)) : strContains s sub = true := by
  unfold strContains
  rw [h]
  exact strContainsAux_append _ _ _

lemma jsStartsWith_self (s : String) : jsStartsWith s s = true := by
  simp [jsStartsWith]


lemma issueURL_decomposition (id source pr : String) :
    issueURL id source pr =
      urlFixedPart ++ formEncode (issueBody (removeFirst id pr) source) := by
  simp [issueURL, urlSearchParamsToString, urlFixedPart, String.append_assoc]

lemma urlFixedPart_literal :
    urlFixedPart =
      "https://github.com/withastro/astro/issues/new?labels=compiler&title=%F0%9F%90%9B+BUG%3A+%60%40astrojs%2Fcompiler%60+panic&body=" := by
  decide

lemma strContains_of_split (s sub pre post : String) (h : s = pre ++ (sub ++ post)) :
    strContains s sub = true := by
  apply strContains_intro _ _ pre.data post.data
  rw [h]
  simp [String.data_append]

lemma strContains_enrichedMessage (u : String) :
    strContains (enrichedMessage u) u = true := by
  apply strContains_of_split _ _
    "Error: Uh oh, the Astro compiler encountered an unrecoverable error!\n\nPlease open\na GitHub issue using the link below:\n" ""
  simp [enrichedMessage]

lemma strContains_issueURL_labels (id source pr : String) :
    strContains (issueURL id source pr) "labels=compiler" = true := by
  apply strContains_of_split _ _ "https://github.com/withastro/astro/issues/new?"
    ("&title=%F0%9F%90%9B+BUG%3A+%60%40astrojs%2Fcompiler%60+panic&body=" ++
      formEncode (issueBody (removeFirst id pr) source))
  rw [issueURL_decomposition, urlFixedPart_literal]
  apply String.ext
  have hsplit :
      ("https://github.com/withastro/astro/issues/new?labels=compiler&title=%F0%9F%90%9B+BUG%3A+%60%40astrojs%2Fcompiler%60+panic&body=" : String).data =
        ("https://github.com/withastro/astro/issues/new?" : String).data ++
          (("labels=compiler" : String).data ++
            ("&title=%F0%9F%90%9B+BUG%3A+%60%40astrojs%2Fcompiler%60+panic&body=" : String).data) := by
    decide
  simp [String.data_append, hsplit]

lemma strContains_issueURL_title (id source pr : String) :
    strContains (issueURL id source pr)
      "title=%F0%9F%90%9B+BUG%3A+%60%40astrojs%2Fcompiler%60+panic" = true := by
  apply strContains_of_split _ _ "https://github.com/withastro/astro/issues/new?labels=compiler&"
    ("&body=" ++ formEncode (issueBody (removeFirst id pr) source))
  rw [issueURL_decomposition, urlFixedPart_literal]
  apply String.ext
  have hsplit :
      ("https://github.com/withastro/astro/issues/new?labels=compiler&title=%F0%9F%90%9B+BUG%3A+%60%40astrojs%2Fcompiler%60+panic&body=" : String).data =
        ("https://github.com/withastro/astro/issues/new?labels=compiler&" : String).data ++
          (("title=%F0%9F%90%9B+BUG%3A+%60%40astrojs%2Fcompiler%60+panic" : String).data ++
            ("&body=" : String).data) := by
    decide
  simp [String.data_append, hsplit]


/-! ## Claims -/

/-- C3 (counterexample): the claim says `isSSR` returns `false` for
`null`, but in the source `typeof null == 'object'`, so the object
branch evaluates `options.ssr` on `null` and throws a TypeError instead
of returning a boolean. -/
theorem c3_isSSR_null_counterexample :
    isSSR JSValue.null =
      Except.error "TypeError: Cannot read properties of null (reading ssr)" ∧
    isSSR JSValue.null ≠ Except.ok false := by
  have h : isSSR JSValue.null =
      Except.error "TypeError: Cannot read properties of null (reading ssr)" := rfl
  exact ⟨h, fun hc => Except.noConfusion (h ▸ hc)⟩

/-- C3 (amended): `isSSR` returns `false` for `undefined`, the boolean
itself for a boolean, the truthiness of the `ssr` field for an object
(`{ssr: true} → true`, `{ssr: false} → false`, `{} → false`), and
`false` for non-boolean, non-object primitives; on `null` (for which
JS `typeof` reports "object") it does not return at all but throws a
TypeError, so `isSSR` is total except on `null`. -/
theorem c3_isSSR_characterization :
    isSSR JSValue.undefined = Except.ok false ∧
    (∀ b : Bool, isSSR (JSValue.bool b) = Except.ok b) ∧
    (∀ fs, isSSR (JSValue.obj fs) =
      Except.ok (truthy ((jsLookup fs "ssr").getD JSValue.undefined))) ∧
    isSSR (JSValue.obj [("ssr", JSValue.bool true)]) = Except.ok true ∧
    isSSR (JSValue.obj [("ssr", JSValue.bool false)]) = Except.ok false ∧
    isSSR (JSValue.obj []) = Except.ok false ∧
    (∀ s : String, isSSR (JSValue.str s) = Except.ok false) ∧
    (∀ n : Int, isSSR (JSValue.num n) = Except.ok false) ∧
    isSSR JSValue.null =
      Except.error "TypeError: Cannot read properties of null (reading ssr)" :=
  ⟨rfl, fun _ => rfl, fun _ => rfl, rfl, rfl, rfl, fun _ => rfl, fun _ => rfl, rfl⟩

/-- C5: for every file id that does not end in `.astro`, `load` returns
the "no result" value immediately and performs no effects at all (no
read, no compile, no esbuild call), for every environment and
configuration. -/
theorem c5_non_astro_no_result (env : LoadEnv) (cfg : Config) (id : String)
    (h : jsEndsWith id ".astro" = false) :
    load env cfg id = (Except.ok none, []) := by
  simp [load, h]

/-- C5 witness: a concrete non-`.astro` id. -/
theorem c5_non_astro_no_result_witness :
    jsEndsWith "a.ts" ".astro" = false ∧
    load envW cfgW "a.ts" = (Except.ok none, []) :=
  ⟨by decide, c5_non_astro_no_result envW cfgW "a.ts" (by decide)⟩

/-- C2: for every `.astro` id whose read succeeds, the compiler is
invoked with exactly the mode `classifiedMode`; that mode is "document"
iff the normalized id starts (string prefix) with the normalized pages
root or the normalized layouts root, a path exactly equal to a root
classifies as document mode, and exactly one of the two modes is
selected. -/
theorem c2_document_fragment_classification (env : LoadEnv) (cfg : Config) (id source : String)
    (hid : jsEndsWith id ".astro" = true)
    (hread : env.readFile id = Except.ok source) :
    (∃ rest, (load env cfg id).2 =
        Eff.read id ::
          Eff.compile (mkCompileInput cfg id
            (classifiedMode env.fileURLToPath cfg.pages cfg.layouts id)) :: rest) ∧
    (classifiedMode env.fileURLToPath cfg.pages cfg.layouts id = "document" ↔
      (jsStartsWith (env.fileURLToPath ("file://" ++ id)) (env.fileURLToPath cfg.pages) = true ∨
       jsStartsWith (env.fileURLToPath ("file://" ++ id)) (env.fileURLToPath cfg.layouts) = true)) ∧
    (env.fileURLToPath ("file://" ++ id) = env.fileURLToPath cfg.pages →
      classifiedMode env.fileURLToPath cfg.pages cfg.layouts id = "document") ∧
    (env.fileURLToPath ("file://" ++ id) = env.fileURLToPath cfg.layouts →
      classifiedMode env.fileURLToPath cfg.pages cfg.layouts id = "document") ∧
    ((classifiedMode env.fileURLToPath cfg.pages cfg.layouts id = "document" ∧
      classifiedMode env.fileURLToPath cfg.pages cfg.layouts id ≠ "fragment") ∨
     (classifiedMode env.fileURLToPath cfg.pages cfg.layouts id = "fragment" ∧
      classifiedMode env.fileURLToPath cfg.pages cfg.layouts id ≠ "document")) := by
  refine ⟨?_, ?_, ?_, ?_, ?_⟩
  · simp only [load, hid]
    cases hc : env.compile (mkCompileInput cfg id
        (classifiedMode env.fileURLToPath cfg.pages cfg.layouts id)) with
    | error e => exact ⟨[], by simp [hread, hc]⟩
    | ok ts =>
        cases he : env.esbuild
            { code := ts.code, loader := "ts", sourcemap := "external", sourcefile := id } with
        | error err =>
            exact ⟨[Eff.esbuild
              { code := ts.code, loader := "ts", sourcemap := "external", sourcefile := id }],
              by simp [hread, hc, he]⟩
        | ok r =>
            exact ⟨[Eff.esbuild
              { code := ts.code, loader := "ts", sourcemap := "external", sourcefile := id }],
              by simp [hread, hc, he]⟩
  · unfold classifiedMode isPageOf
    cases hp : jsStartsWith (env.fileURLToPath ("file://" ++ id)) (env.fileURLToPath cfg.pages) <;>
      cases hl : jsStartsWith (env.fileURLToPath ("file://" ++ id)) (env.fileURLToPath cfg.layouts) <;>
        simp [hp, hl]
  · intro h
    simp [classifiedMode, isPageOf, h, jsStartsWith_self]
  · intro h
    simp [classifiedMode, isPageOf, h, jsStartsWith_self]
  · unfold classifiedMode
    cases hmode : isPageOf env.fileURLToPath cfg.pages cfg.layouts id <;> simp [hmode]

/-- C2 witness: concrete environment and id. -/
theorem c2_document_fragment_classification_witness :
    jsEndsWith "a.astro" ".astro" = true ∧
    envW.readFile "a.astro" = Except.ok "" ∧
    ((∃ rest, (load envW cfgW "a.astro").2 =
        Eff.read "a.astro" ::
          Eff.compile (mkCompileInput cfgW "a.astro"
            (classifiedMode envW.fileURLToPath cfgW.pages cfgW.layouts "a.astro")) :: rest) ∧
    (classifiedMode envW.fileURLToPath cfgW.pages cfgW.layouts "a.astro" = "document" ↔
      (jsStartsWith (envW.fileURLToPath ("file://" ++ "a.astro")) (envW.fileURLToPath cfgW.pages) = true ∨
       jsStartsWith (envW.fileURLToPath ("file://" ++ "a.astro")) (envW.fileURLToPath cfgW.layouts) = true)) ∧
    (envW.fileURLToPath ("file://" ++ "a.astro") = envW.fileURLToPath cfgW.pages →
      classifiedMode envW.fileURLToPath cfgW.pages cfgW.layouts "a.astro" = "document") ∧
    (envW.fileURLToPath ("file://" ++ "a.astro") = envW.fileURLToPath cfgW.layouts →
      classifiedMode envW.fileURLToPath cfgW.pages cfgW.layouts "a.astro" = "document") ∧
    ((classifiedMode envW.fileURLToPath cfgW.pages cfgW.layouts "a.astro" = "document" ∧
      classifiedMode envW.fileURLToPath cfgW.pages cfgW.layouts "a.astro" ≠ "fragment") ∨
     (classifiedMode envW.fileURLToPath cfgW.pages cfgW.layouts "a.astro" = "fragment" ∧
      classifiedMode envW.fileURLToPath cfgW.pages cfgW.layouts "a.astro" ≠ "document"))) :=
  ⟨by decide, rfl,
    c2_document_fragment_classification envW cfgW "a.astro" "" (by decide) rfl⟩

/-- C4 (counterexample): the claim says a string map is returned as-is,
but the source guards the whole normalization with `if (result.map)`
(JS truthiness), so the empty-string map — a string — is treated as
absent and the output map is `undefined`, not `""`. -/
theorem c4_style_map_counterexample :
    preprocessStyle (fun _ => some ⟨"c", JSValue.str "", "ts"⟩) "v" none "i" JSValue.undefined =
      Except.ok (some { code := "c", map := none }) ∧
    (none : Option String) ≠ some "" :=
  ⟨rfl, fun h => Option.noConfusion h⟩

/-- C4 (amended): if the delegate returns nothing the bridge returns
that absent result unchanged; otherwise an absent map yields
`undefined`; a truthy (non-empty) string map is returned as-is (an
empty-string map, being falsy, yields `undefined` like any other falsy
map); an object map with a truthy `mappings` field yields its
`toString()` serialization; an object without one (e.g. `{}`) yields
`undefined`, not an error. -/
theorem c4_style_map_normalization (v id c ts s : String)
    (attrs : Option (List (String × String))) (m : List (String × JSValue))
    (hs : s ≠ "") (hm : truthy (getFieldD (JSValue.obj m) "mappings") = true) :
    preprocessStyle (fun _ => none) v attrs id JSValue.undefined = Except.ok none ∧
    preprocessStyle (fun _ => some ⟨c, JSValue.undefined, ts⟩) v attrs id JSValue.undefined =
      Except.ok (some { code := c, map := none }) ∧
    preprocessStyle (fun _ => some ⟨c, JSValue.str s, ts⟩) v attrs id JSValue.undefined =
      Except.ok (some { code := c, map := some s }) ∧
    preprocessStyle (fun _ => some ⟨c, JSValue.obj m, ts⟩) v attrs id JSValue.undefined =
      Except.ok (some { code := c, map := some ts }) ∧
    preprocessStyle (fun _ => some ⟨c, JSValue.obj [], ts⟩) v attrs id JSValue.undefined =
      Except.ok (some { code := c, map := none }) ∧
    preprocessStyle (fun _ => some ⟨c, JSValue.str "", ts⟩) v attrs id JSValue.undefined =
      Except.ok (some { code := c, map := none }) := by
  refine ⟨rfl, rfl, ?_, ?_, rfl, rfl⟩
  · have ht : truthy (JSValue.str s) = true := by simpa [truthy] using hs
    have h3 : normalizeMap (JSValue.str s) ts = some s := by simp [normalizeMap, ht]
    show (Except.ok (some ({ code := c, map := normalizeMap (JSValue.str s) ts } : StyleOut)) :
        Except String (Option StyleOut)) =
      Except.ok (some { code := c, map := some s })
    rw [h3]
  · have houter : truthy (JSValue.obj m) = true := rfl
    have h4 : normalizeMap (JSValue.obj m) ts = some ts := by
      simp [normalizeMap, houter, hm]
    show (Except.ok (some ({ code := c, map := normalizeMap (JSValue.obj m) ts } : StyleOut)) :
        Except String (Option StyleOut)) =
      Except.ok (some { code := c, map := some ts })
    rw [h4]

/-- C4 witness: concrete delegate results for every branch. -/
theorem c4_style_map_normalization_witness :
    ("abc" : String) ≠ "" ∧
    truthy (getFieldD (JSValue.obj [("mappings", JSValue.str "AAA")]) "mappings") = true ∧
    (preprocessStyle (fun _ => none) "v" none "i" JSValue.undefined = Except.ok none ∧
    preprocessStyle (fun _ => some ⟨"c", JSValue.undefined, "X"⟩) "v" none "i" JSValue.undefined =
      Except.ok (some { code := "c", map := none }) ∧
    preprocessStyle (fun _ => some ⟨"c", JSValue.str "abc", "X"⟩) "v" none "i" JSValue.undefined =
      Except.ok (some { code := "c", map := some "abc" }) ∧
    preprocessStyle (fun _ => some ⟨"c", JSValue.obj [("mappings", JSValue.str "AAA")], "X"⟩)
        "v" none "i" JSValue.undefined =
      Except.ok (some { code := "c", map := some "X" }) ∧
    preprocessStyle (fun _ => some ⟨"c", JSValue.obj [], "X"⟩) "v" none "i" JSValue.undefined =
      Except.ok (some { code := "c", map := none }) ∧
    preprocessStyle (fun _ => some ⟨"c", JSValue.str "", "X"⟩) "v" none "i" JSValue.undefined =
      Except.ok (some { code := "c", map := none })) :=
  ⟨by decide, rfl,
    c4_style_map_normalization "v" "i" "c" "X" "abc" none
      [("mappings", JSValue.str "AAA")] (by decide) rfl⟩

/-- C8: the language token handed to the host style-transform chain is
derived from `attrs.lang` when present (dot-prefixed and lower-cased),
defaults to `css` when absent; `lang` unset gives ".css" and
`lang = "SCSS"` gives ".scss"; an echoing delegate observes exactly
`deriveLang attrs` as its `lang` argument. -/
theorem c8_style_lang_token (v id s : String) (a a' : List (String × String))
    (hs : strLookup a "lang" = some s) (hne : s ≠ "")
    (hn : strLookup a' "lang" = none) :
    deriveLang (some a) = jsToLowerCase ("." ++ s) ∧
    deriveLang (some a') = ".css" ∧
    deriveLang none = ".css" ∧
    deriveLang (some [("lang", "SCSS")]) = ".scss" ∧
    preprocessStyle (fun req => some ⟨req.lang, JSValue.undefined, ""⟩) v (some a) id
        JSValue.undefined =
      Except.ok (some { code := deriveLang (some a), map := none }) := by
  refine ⟨?_, ?_, by decide, by decide, rfl⟩
  · simp [deriveLang, hs, hne]
  · simp [deriveLang, hn]
    decide

/-- C8 witness: concrete attribute records. -/
theorem c8_style_lang_token_witness :
    strLookup [("lang", "SCSS")] "lang" = some "SCSS" ∧
    ("SCSS" : String) ≠ "" ∧
    strLookup [] "lang" = none ∧
    (deriveLang (some [("lang", "SCSS")]) = jsToLowerCase ("." ++ "SCSS") ∧
    deriveLang (some []) = ".css" ∧
    deriveLang none = ".css" ∧
    deriveLang (some [("lang", "SCSS")]) = ".scss" ∧
    preprocessStyle (fun req => some ⟨req.lang, JSValue.undefined, ""⟩) "v"
        (some [("lang", "SCSS")]) "i" JSValue.undefined =
      Except.ok (some { code := deriveLang (some [("lang", "SCSS")]), map := none })) :=
  ⟨rfl, by decide, rfl,
    c8_style_lang_token "v" "i" "SCSS" [("lang", "SCSS")] [] rfl (by decide) rfl⟩

/-- C10: the css default applies to every falsy `lang` value, not only
to an absent one: a present-but-empty `attrs.lang` and a nullish
`attrs` object both derive ".css", not ".". -/
theorem c10_falsy_lang_default (a : List (String × String))
    (h : strLookup a "lang" = some "") :
    deriveLang (some a) = ".css" ∧
    deriveLang none = ".css" ∧
    deriveLang (some [("lang", "")]) = ".css" ∧
    deriveLang (some [("lang", "")]) ≠ "." := by
  refine ⟨?_, by decide, by decide, by decide⟩
  simp [deriveLang, h]
  decide

/-- C10 witness: a record whose `lang` is the empty string. -/
theorem c10_falsy_lang_default_witness :
    strLookup [("lang", "")] "lang" = some "" ∧
    (deriveLang (some [("lang", "")]) = ".css" ∧
    deriveLang none = ".css" ∧
    deriveLang (some [("lang", "")]) = ".css" ∧
    deriveLang (some [("lang", "")]) ≠ ".") :=
  ⟨rfl, c10_falsy_lang_default [("lang", "")] rfl⟩

/-- C9: the catch handler unconditionally evaluates
`err.stack.includes(...)`: for every thrown value whose `stack`
property is not a string (a plain object, a thrown string primitive,
an error with undefined stack, or `null`/`undefined` themselves), the
handler raises a fresh TypeError, and the value propagated to the host
is that TypeError, not the original error. -/
theorem c9_handler_type_error (e : JSValue) (cfg : Config) (idf src : String)
    (hid : jsEndsWith idf ".astro" = true)
    (h : ∀ st : String, getField e "stack" ≠ Except.ok (JSValue.str st)) :
    ∃ m, catchHandler e idf src cfg.projectRoot = ThrownValue.freshTypeError m ∧
      (load { fileURLToPath := fun s => s, readFile := fun _ => Except.ok src,
              compile := fun _ => Except.error e,
              esbuild := fun _ => Except.error JSValue.null } cfg idf).1 =
        Except.error (ThrownValue.freshTypeError m) ∧
      ThrownValue.freshTypeError m ≠ ThrownValue.jsValue e := by
  have hload :
      (load { fileURLToPath := fun s => s, readFile := fun _ => Except.ok src,
              compile := fun _ => Except.error e,
              esbuild := fun _ => Except.error JSValue.null } cfg idf).1 =
        Except.error (catchHandler e idf src cfg.projectRoot) := by
    simp [load, hid]
  cases hg : getField e "stack" with
  | error msg =>
      have hc : catchHandler e idf src cfg.projectRoot = ThrownValue.freshTypeError msg := by
        simp [catchHandler, hg]
      exact ⟨msg, hc, by rw [hload, hc], fun hx => ThrownValue.noConfusion hx⟩
  | ok v =>
      cases v with
      | str st => exact absurd hg (h st)
      | undefined =>
          have hc : catchHandler e idf src cfg.projectRoot =
              ThrownValue.freshTypeError "TypeError: err.stack.includes is not a function" := by
            simp [catchHandler, hg]
          exact ⟨_, hc, by rw [hload, hc], fun hx => ThrownValue.noConfusion hx⟩
      | null =>
          have hc : catchHandler e idf src cfg.projectRoot =
              ThrownValue.freshTypeError "TypeError: err.stack.includes is not a function" := by
            simp [catchHandler, hg]
          exact ⟨_, hc, by rw [hload, hc], fun hx => ThrownValue.noConfusion hx⟩
      | bool b =>
          have hc : catchHandler e idf src cfg.projectRoot =
              ThrownValue.freshTypeError "TypeError: err.stack.includes is not a function" := by
            simp [catchHandler, hg]
          exact ⟨_, hc, by rw [hload, hc], fun hx => ThrownValue.noConfusion hx⟩
      | num n =>
          have hc : catchHandler e idf src cfg.projectRoot =
              ThrownValue.freshTypeError "TypeError: err.stack.includes is not a function" := by
            simp [catchHandler, hg]
          exact ⟨_, hc, by rw [hload, hc], fun hx => ThrownValue.noConfusion hx⟩
      | obj fs =>
          have hc : catchHandler e idf src cfg.projectRoot =
              ThrownValue.freshTypeError "TypeError: err.stack.includes is not a function" := by
            simp [catchHandler, hg]
          exact ⟨_, hc, by rw [hload, hc], fun hx => ThrownValue.noConfusion hx⟩

/-- C9 witness: a thrown plain object with no `stack` property. -/
theorem c9_handler_type_error_witness :
    jsEndsWith "a.astro" ".astro" = true ∧
    (∀ st : String, getField (JSValue.obj []) "stack" ≠ Except.ok (JSValue.str st)) ∧
    (∃ m, catchHandler (JSValue.obj []) "a.astro" "s" cfgW.projectRoot =
        ThrownValue.freshTypeError m ∧
      (load { fileURLToPath := fun s => s, readFile := fun _ => Except.ok "s",
              compile := fun _ => Except.error (JSValue.obj []),
              esbuild := fun _ => Except.error JSValue.null } cfgW "a.astro").1 =
        Except.error (ThrownValue.freshTypeError m) ∧
      ThrownValue.freshTypeError m ≠ ThrownValue.jsValue (JSValue.obj [])) :=
  ⟨by decide, fun st hc => by simp [getField, jsLookup] at hc,
    c9_handler_type_error (JSValue.obj []) cfgW "a.astro" "s" (by decide)
      (fun st hc => by simp [getField, jsLookup] at hc)⟩

/-- C6 (counterexample): a read failure is not caught by the
error-enrichment handler.  The read happens before the `try` block, so
a thrown plain object propagates as itself, while the handler applied
to that same value would have raised a fresh TypeError — had the claim
held, the propagated value would have been that TypeError. -/
theorem c6_read_failure_counterexample :
    (load { fileURLToPath := fun s => s, readFile := fun _ => Except.error (JSValue.obj []),
            compile := fun _ => Except.error JSValue.null,
            esbuild := fun _ => Except.error JSValue.null } cfgW "a.astro").1 =
      Except.error (ThrownValue.jsValue (JSValue.obj [])) ∧
    catchHandler (JSValue.obj []) "a.astro" "" "" =
      ThrownValue.freshTypeError "TypeError: err.stack.includes is not a function" ∧
    ThrownValue.jsValue (JSValue.obj []) ≠
      ThrownValue.freshTypeError "TypeError: err.stack.includes is not a function" := by
  have hend : jsEndsWith "a.astro" ".astro" = true := by decide
  exact ⟨by simp [load, hend], rfl, fun hx => ThrownValue.noConfusion hx⟩

/-- C6 (amended): exceptions raised by the compile step and by the
esbuild step — the body of the `try` block — are caught by the
error-enrichment handler before re-propagating; the file read executes
before the `try` block (as does the path classification of lines
51-52), so a read failure is not caught by the handler and propagates
directly to the host, unmodified. -/
theorem c6_catch_scope (cfg : Config) (idf source ts : String) (e : JSValue)
    (cmp : CompileInput → Except JSValue TransformResult)
    (esb : EsbuildInput → Except JSValue EsbuildResult)
    (hid : jsEndsWith idf ".astro" = true) :
    (load { fileURLToPath := fun s => s, readFile := fun _ => Except.error e,
            compile := cmp, esbuild := esb } cfg idf).1 =
      Except.error (ThrownValue.jsValue e) ∧
    (load { fileURLToPath := fun s => s, readFile := fun _ => Except.ok source,
            compile := fun _ => Except.error e, esbuild := esb } cfg idf).1 =
      Except.error (catchHandler e idf source cfg.projectRoot) ∧
    (load { fileURLToPath := fun s => s, readFile := fun _ => Except.ok source,
            compile := fun _ => Except.ok ⟨ts⟩, esbuild := fun _ => Except.error e }
        cfg idf).1 =
      Except.error (catchHandler e idf source cfg.projectRoot) :=
  ⟨by simp [load, hid], by simp [load, hid], by simp [load, hid]⟩

/-- C6 witness: a concrete id and error value. -/
theorem c6_catch_scope_witness :
    jsEndsWith "a.astro" ".astro" = true ∧
    ((load { fileURLToPath := fun s => s, readFile := fun _ => Except.error JSValue.null,
             compile := fun _ => Except.error JSValue.null,
             esbuild := fun _ => Except.error JSValue.null } cfgW "a.astro").1 =
      Except.error (ThrownValue.jsValue JSValue.null) ∧
    (load { fileURLToPath := fun s => s, readFile := fun _ => Except.ok "",
            compile := fun _ => Except.error JSValue.null,
            esbuild := fun _ => Except.error JSValue.null } cfgW "a.astro").1 =
      Except.error (catchHandler JSValue.null "a.astro" "" cfgW.projectRoot) ∧
    (load { fileURLToPath := fun s => s, readFile := fun _ => Except.ok "",
            compile := fun _ => Except.ok ⟨"t"⟩,
            esbuild := fun _ => Except.error JSValue.null } cfgW "a.astro").1 =
      Except.error (catchHandler JSValue.null "a.astro" "" cfgW.projectRoot)) :=
  ⟨by decide,
    c6_catch_scope cfgW "a.astro" "" "t" JSValue.null
      (fun _ => Except.error JSValue.null) (fun _ => Except.error JSValue.null) (by decide)⟩

/-- C7 (counterexample): the catch handler applies the same
sandbox-marker test to every caught error, so an esbuild-thrown error
whose stack contains 'wasm-function' is enriched, not propagated
unmodified: its stack is replaced by the synthetic frame. -/
theorem c7_transpiler_enriched_counterexample :
    (load { fileURLToPath := fun s => s, readFile := fun _ => Except.ok "",
            compile := fun _ => Except.ok ⟨"t"⟩,
            esbuild := fun _ =>
              Except.error (JSValue.obj [("stack", JSValue.str "wasm-function")]) }
        cfgW "a.astro").1 =
      Except.error (ThrownValue.jsValue
        (enrichError (JSValue.obj [("stack", JSValue.str "wasm-function")]) "a.astro" "" "")) ∧
    getField (enrichError (JSValue.obj [("stack", JSValue.str "wasm-function")]) "a.astro" "" "")
        "stack" = Except.ok (JSValue.str ("    at " ++ "a.astro")) ∧
    JSValue.str ("    at " ++ "a.astro") ≠ JSValue.str "wasm-function" := by
  have hend : jsEndsWith "a.astro" ".astro" = true := by decide
  have hmark : strContains "wasm-function" sandboxMarker = true := by decide
  refine ⟨?_, getField_enrichError_stack _ _ _ _, by simp⟩
  have hg : getField (JSValue.obj [("stack", JSValue.str "wasm-function")]) "stack" =
      Except.ok (JSValue.str "wasm-function") := rfl
  simp [load, hend, catchHandler, hg, hmark, cfgW]

/-- C7 (amended): an esbuild-step error whose stack is a string not
containing the sandbox marker — the shape real transpiler rejections
have — is propagated unmodified; the handler cannot distinguish which
step threw, so only the marker decides enrichment. -/
theorem c7_transpiler_passthrough (cfg : Config) (idf source ts st : String)
    (fs : List (String × JSValue))
    (hid : jsEndsWith idf ".astro" = true)
    (hstack : jsLookup fs "stack" = some (JSValue.str st))
    (hmarker : strContains st sandboxMarker = false) :
    (load { fileURLToPath := fun s => s, readFile := fun _ => Except.ok source,
            compile := fun _ => Except.ok ⟨ts⟩,
            esbuild := fun _ => Except.error (JSValue.obj fs) } cfg idf).1 =
      Except.error (ThrownValue.jsValue (JSValue.obj fs)) := by
  have hg : getField (JSValue.obj fs) "stack" = Except.ok (JSValue.str st) := by
    simp [getField, hstack]
  simp [load, hid, catchHandler, hg, hmarker]

/-- C7 witness: a concrete esbuild rejection with an ordinary stack. -/
theorem c7_transpiler_passthrough_witness :
    jsEndsWith "a.astro" ".astro" = true ∧
    jsLookup [("stack", JSValue.str "Error: Transform failed")] "stack" =
      some (JSValue.str "Error: Transform failed") ∧
    strContains "Error: Transform failed" sandboxMarker = false ∧
    (load { fileURLToPath := fun s => s, readFile := fun _ => Except.ok "",
            compile := fun _ => Except.ok ⟨"t"⟩,
            esbuild := fun _ =>
              Except.error (JSValue.obj [("stack", JSValue.str "Error: Transform failed")]) }
        cfgW "a.astro").1 =
      Except.error (ThrownValue.jsValue
        (JSValue.obj [("stack", JSValue.str "Error: Transform failed")])) :=
  ⟨by decide, rfl, by decide,
    c7_transpiler_passthrough cfgW "a.astro" "" "t" "Error: Transform failed"
      [("stack", JSValue.str "Error: Transform failed")] (by decide) rfl (by decide)⟩

/-- C1: for every error object thrown inside the try block whose
`stack` is a string: if the stack contains the sandbox marker
'wasm-function', the rethrown error's message is the fixed message
carrying the issue URL — whose query string contains the fixed
`labels=compiler` parameter and the fixed encoded title — and its stack
is exactly the one synthetic line `    at <fileId>`; if the stack does
not contain the marker, the error is rethrown with every field,
message and stack included, unchanged; in both cases the error is
rethrown, never swallowed. -/
theorem c1_error_enrichment (cfg : Config) (idf source st : String)
    (fs : List (String × JSValue)) (env : LoadEnv)
    (esb : EsbuildInput → Except JSValue EsbuildResult)
    (henv : env = { fileURLToPath := fun s => s, readFile := fun _ => Except.ok source,
                    compile := fun _ => Except.error (JSValue.obj fs), esbuild := esb })
    (hid : jsEndsWith idf ".astro" = true)
    (hstack : jsLookup fs "stack" = some (JSValue.str st)) :
    (strContains st sandboxMarker = true →
      (load env cfg idf).1 =
        Except.error (ThrownValue.jsValue
          (enrichError (JSValue.obj fs) idf source cfg.projectRoot)) ∧
      getField (enrichError (JSValue.obj fs) idf source cfg.projectRoot) "stack" =
        Except.ok (JSValue.str ("    at " ++ idf)) ∧
      getField (enrichError (JSValue.obj fs) idf source cfg.projectRoot) "message" =
        Except.ok (JSValue.str (enrichedMessage (issueURL idf source cfg.projectRoot))) ∧
      getField (enrichError (JSValue.obj fs) idf source cfg.projectRoot) "url" =
        Except.ok (JSValue.str (issueURL idf source cfg.projectRoot)) ∧
      strContains (enrichedMessage (issueURL idf source cfg.projectRoot))
        (issueURL idf source cfg.projectRoot) = true ∧
      strContains (issueURL idf source cfg.projectRoot) "labels=compiler" = true ∧
      strContains (issueURL idf source cfg.projectRoot)
        "title=%F0%9F%90%9B+BUG%3A+%60%40astrojs%2Fcompiler%60+panic" = true) ∧
    (strContains st sandboxMarker = false →
      (load env cfg idf).1 = Except.error (ThrownValue.jsValue (JSValue.obj fs))) := by
  subst henv
  have hg : getField (JSValue.obj fs) "stack" = Except.ok (JSValue.str st) := by
    simp [getField, hstack]
  have hload :
      (load { fileURLToPath := fun s => s, readFile := fun _ => Except.ok source,
              compile := fun _ => Except.error (JSValue.obj fs), esbuild := esb }
        cfg idf).1 =
      Except.error (catchHandler (JSValue.obj fs) idf source cfg.projectRoot) := by
    simp [load, hid]
  constructor
  · intro hm
    have hch : catchHandler (JSValue.obj fs) idf source cfg.projectRoot =
        ThrownValue.jsValue (enrichError (JSValue.obj fs) idf source cfg.projectRoot) := by
      simp [catchHandler, hg, hm]
    exact ⟨by rw [hload, hch], getField_enrichError_stack _ _ _ _,
      getField_enrichError_message _ _ _ _, getField_enrichError_url _ _ _ _,
      strContains_enrichedMessage _, strContains_issueURL_labels _ _ _,
      strContains_issueURL_title _ _ _⟩
  · intro hm
    have hch : catchHandler (JSValue.obj fs) idf source cfg.projectRoot =
        ThrownValue.jsValue (JSValue.obj fs) := by
      simp [catchHandler, hg, hm]
    rw [hload, hch]


/-- C1 witness: a concrete compiler panic. -/
theorem c1_error_enrichment_witness :
    jsEndsWith "a.astro" ".astro" = true ∧
    jsLookup [("stack", JSValue.str "at wasm-function")] "stack" =
      some (JSValue.str "at wasm-function") ∧
    ((strContains "at wasm-function" sandboxMarker = true →
      (load envC1W cfgW "a.astro").1 =
        Except.error (ThrownValue.jsValue
          (enrichError (JSValue.obj [("stack", JSValue.str "at wasm-function")])
            "a.astro" "" cfgW.projectRoot)) ∧
      getField (enrichError (JSValue.obj [("stack", JSValue.str "at wasm-function")])
          "a.astro" "" cfgW.projectRoot) "stack" =
        Except.ok (JSValue.str ("    at " ++ "a.astro")) ∧
      getField (enrichError (JSValue.obj [("stack", JSValue.str "at wasm-function")])
          "a.astro" "" cfgW.projectRoot) "message" =
        Except.ok (JSValue.str (enrichedMessage (issueURL "a.astro" "" cfgW.projectRoot))) ∧
      getField (enrichError (JSValue.obj [("stack", JSValue.str "at wasm-function")])
          "a.astro" "" cfgW.projectRoot) "url" =
        Except.ok (JSValue.str (issueURL "a.astro" "" cfgW.projectRoot)) ∧
      strContains (enrichedMessage (issueURL "a.astro" "" cfgW.projectRoot))
        (issueURL "a.astro" "" cfgW.projectRoot) = true ∧
      strContains (issueURL "a.astro" "" cfgW.projectRoot) "labels=compiler" = true ∧
      strContains (issueURL "a.astro" "" cfgW.projectRoot)
        "title=%F0%9F%90%9B+BUG%3A+%60%40astrojs%2Fcompiler%60+panic" = true) ∧
    (strContains "at wasm-function" sandboxMarker = false →
      (load envC1W cfgW "a.astro").1 =
        Except.error (ThrownValue.jsValue
          (JSValue.obj [("stack", JSValue.str "at wasm-function")])))) :=
  ⟨by decide, rfl,
    c1_error_enrichment cfgW "a.astro" "" "at wasm-function"
      [("stack", JSValue.str "at wasm-function")] envC1W
      (fun _ => Except.error JSValue.null) rfl (by decide) rfl⟩
